import Mathlib

/-!
Verification of the NASA-AQI web app's data-normalization and
fallback-forecast pipeline, shallowly embedded from the Python sources
(Backend/utils/data_processor.py, Backend/data_ingest.py, Backend/main.py,
Backend/ml_model.py).

Modelling conventions:
* Python floats are modelled as rationals.
* Python datetimes are modelled as integer hours since an arbitrary epoch;
  a datetime's hour-of-day attribute is the value modulo 24.
* Library calls with irrational or external behaviour (hashlib.md5,
  numpy's seeded normal draws, the square root in the standard deviation,
  the trained scikit-learn regressor) are passed in as explicit function
  parameters, so every definition stays executable and deterministic.
* Python's str.strip, str.lower and str.upper are modelled by pyStrip,
  pyLower and pyUpper below, working on the underlying character list.
-/

namespace AQ

/-- Model of Python's str.strip: drop whitespace at both ends. -/
def pyStrip (s : String) : String :=
  ⟨((s.data.dropWhile Char.isWhitespace).reverse.dropWhile Char.isWhitespace).reverse⟩

/-- Model of Python's str.lower (ASCII case folding; the inputs at hand
contain no cased non-ASCII characters). -/
def pyLower (s : String) : String := ⟨s.data.map Char.toLower⟩

/-- Model of Python's str.upper. -/
def pyUpper (s : String) : String := ⟨s.data.map Char.toUpper⟩

/-! ## DataProcessor (Backend/utils/data_processor.py) -/

/-- A raw measurement dictionary as consumed by
DataProcessor._clean_single_measurement.  A missing 'city', 'parameter',
'unit' or 'source' key is the empty string (the source defaults them with
.get).  'value' is none when the key is missing or the payload cannot be
coerced to float; otherwise it holds the coerced float.  'dateUtc' is none
when the key is missing or the ISO-8601 parse fails; otherwise it holds
the parsed datetime in hours since the epoch. -/
structure RawMeasurement where
  city : String
  parameter : String
  value : Option ℚ
  unit : String
  dateUtc : Option ℤ
  source : String
  deriving DecidableEq, Repr

/-- A cleaned measurement as returned by
DataProcessor._clean_single_measurement (the original_data audit field is
not modelled). -/
structure CleanMeasurement where
  city : String
  parameter : String
  value : ℚ
  unit : String
  dateUtc : ℤ
  source : String
  deriving DecidableEq, Repr

instance : Inhabited CleanMeasurement := ⟨⟨"", "", 0, "", 0, ""⟩⟩

/-- DataProcessor.PARAMETER_RANGES. -/
def parameterRanges : String → Option (ℚ × ℚ)
  | "PM2.5" => some (0, 500)
  | "O3" => some (0, 500)
  | "NO2" => some (0, 500)
  | "HCHO" => some (0, 50)
  | _ => none

/-- DataProcessor.UNIT_CONVERSIONS: some (some f) is a direct factor,
some none is a table entry whose factor is Python's None (ppm, ppb,
mol/m²), none means the unit is not in the table. -/
def unitConversions : String → Option (Option ℚ)
  | "µg/m³" => some (some 1)
  | "ug/m3" => some (some 1)
  | "mg/m³" => some (some 1000)
  | "mg/m3" => some (some 1000)
  | "ppm" => some none
  | "ppb" => some none
  | "mol/m²" => some none
  | _ => none

/-- DataProcessor.MOLECULAR_WEIGHTS. -/
def molecularWeights : String → Option ℚ
  | "PM2.5" => some 1
  | "O3" => some 48
  | "NO2" => some 46
  | "HCHO" => some 30
  | _ => none

/-- DataProcessor._convert_ppm_ppb.  Takes the already case-folded,
trimmed unit, exactly as the source call site passes it. -/
def convertPpmPpb (value : ℚ) (unit parameter : String) : Option ℚ × String :=
  match molecularWeights parameter with
  | none => (none, unit)
  | some mw =>
    if unit = "ppm" then (some (value * 1000 * mw), "µg/m³")
    else if unit = "ppb" then (some (value * 1 * mw), "µg/m³")
    else (none, unit)

/-- DataProcessor._convert_units. -/
def convertUnits (value : ℚ) (unit parameter : String) : Option ℚ × String :=
  let u := pyStrip (pyLower unit)
  match unitConversions u with
  | some (some factor) => (some (value * factor), "µg/m³")
  | _ =>
    if u = "ppm" ∨ u = "ppb" then convertPpmPpb value u parameter
    else if u = "mol/m²" ∨ u = "mol/m2" then (some value, u)
    else (some value, u)

/-- DataProcessor._validate_value_range. -/
def validateValueRange (value : ℚ) (parameter : String) : Bool :=
  match parameterRanges parameter with
  | none => true
  | some (lo, hi) => decide (lo ≤ value ∧ value ≤ hi)

/-- The param_mapping alias table inside
DataProcessor._normalize_parameter_name. -/
def paramMapping : String → Option String
  | "pm25" => some "PM2.5"
  | "pm2.5" => some "PM2.5"
  | "pm2_5" => some "PM2.5"
  | "o3" => some "O3"
  | "ozone" => some "O3"
  | "no2" => some "NO2"
  | "nitrogen_dioxide" => some "NO2"
  | "hcho" => some "HCHO"
  | "formaldehyde" => some "HCHO"
  | "h2co" => some "HCHO"
  | _ => none

/-- DataProcessor._normalize_parameter_name. -/
def normalizeParameterName (parameter : String) : String :=
  match paramMapping (pyStrip (pyLower parameter)) with
  | some p => p
  | none => pyUpper parameter

/-- DataProcessor._clean_single_measurement.  The ambient wall-clock time
(datetime.utcnow()) is the explicit parameter now, in hours since the
epoch, so the 365-day/1-day window check is now - 365*24 ≤ d ≤ now + 24. -/
def cleanSingleMeasurement (now : ℤ) (m : RawMeasurement) : Option CleanMeasurement :=
  let city := pyStrip m.city
  let parameter := pyStrip m.parameter
  let unit := pyStrip m.unit
  match m.value, m.dateUtc with
  | some value, some d =>
    if city = "" ∨ parameter = "" ∨ unit = "" then none
    else if d < now - 365 * 24 ∨ now + 24 < d then none
    else
      match convertUnits value unit parameter with
      | (none, _) => none
      | (some convertedValue, convertedUnit) =>
        if validateValueRange convertedValue parameter then
          some { city := city
                 parameter := normalizeParameterName parameter
                 value := convertedValue
                 unit := convertedUnit
                 dateUtc := d
                 source := m.source }
        else none
  | _, _ => none

/-- DataProcessor.clean_measurements: the per-record try/except of the
source catches every per-record failure, so the batch cleaner is a total
filterMap over the batch. -/
def cleanMeasurements (now : ℤ) (ms : List RawMeasurement) : List CleanMeasurement :=
  ms.filterMap (cleanSingleMeasurement now)

/-! ## DataIngestionManager unit normalization (Backend/data_ingest.py) -/

/-- DataIngestionManager._ppm_to_ugm3. -/
def ppmToUgm3 : String → ℚ
  | "NO2" => 1880
  | "O3" => 2000
  | "SO2" => 2620
  | "CO" => 1150
  | _ => 1000

/-- DataIngestionManager._ppb_to_ugm3. -/
def ppbToUgm3 (parameter : String) : ℚ := ppmToUgm3 parameter / 1000

/-- DataIngestionManager._normalize_units.  An unknown unit gets the
dictionary default factor 1.0 and is relabelled µg/m³. -/
def normalizeUnits (value : ℚ) (unit parameter : String) : ℚ × String :=
  let u := pyStrip (pyLower unit)
  let factor : ℚ :=
    if u = "µg/m³" then 1
    else if u = "ug/m3" then 1
    else if u = "mg/m³" then 1000
    else if u = "mg/m3" then 1000
    else if u = "ppm" then ppmToUgm3 parameter
    else if u = "ppb" then ppbToUgm3 parameter
    else 1
  (value * factor, "µg/m³")

/-! ## Sorting helper

The source sorts with numpy / Python's sorted.  Any correct
comparison sort yields the same ascending list of rational values, so an
insertion sort (easy to reason about and fully structural) models them. -/

/-- Insert x into a list sorted ascending by le. -/
def insortBy (le : α → α → Bool) (x : α) : List α → List α
  | [] => [x]
  | y :: ys => if le x y then x :: y :: ys else y :: insortBy le x ys

/-- Ascending insertion sort, modelling numpy's sort / Python's sorted. -/
def sortBy (le : α → α → Bool) : List α → List α
  | [] => []
  | x :: xs => insortBy le x (sortBy le xs)

/-- Ascending sort of rational values. -/
def sortQ (vs : List ℚ) : List ℚ := sortBy (fun a b => decide (a ≤ b)) vs

/-! ## Outlier detection (Backend/utils/data_processor.py) -/

/-- numpy.percentile with the default linear interpolation: on the
ascending sorted copy s of vs, the q-th percentile sits at fractional
position (len-1)·q/100 and is linearly interpolated between the two
neighbouring order statistics. -/
def percentile (vs : List ℚ) (q : ℚ) : ℚ :=
  let s := sortQ vs
  let n := s.length
  let pos : ℚ := ((n : ℚ) - 1) * q / 100
  let lo : ℕ := (⌊pos⌋).toNat
  let frac : ℚ := pos - ⌊pos⌋
  if lo + 1 < n then s.getD lo 0 + frac * (s.getD (lo + 1) 0 - s.getD lo 0)
  else s.getD lo 0

/-- numpy.mean. -/
def meanQ (vs : List ℚ) : ℚ := vs.sum / vs.length

/-- The population variance Σ(v - mean)²/n; numpy.std is its square
root.  The z-score method only ever compares the standard deviation with
zero and with a positive threshold, so it is stated on the variance to
keep the development inside the rationals. -/
def varianceQ (vs : List ℚ) : ℚ :=
  (vs.map (fun v => (v - meanQ vs) ^ 2)).sum / vs.length

/-- numpy.median: middle order statistic, or the average of the two
middle order statistics for even length. -/
def medianQ (vs : List ℚ) : ℚ :=
  let s := sortQ vs
  let n := s.length
  if n % 2 = 1 then s.getD (n / 2) 0
  else (s.getD (n / 2 - 1) 0 + s.getD (n / 2) 0) / 2

/-- DataProcessor._detect_outliers_iqr: flag indices whose value is
outside [Q1 - 1.5·IQR, Q3 + 1.5·IQR]. -/
def detectOutliersIqr (vs : List ℚ) : Finset ℕ :=
  let q1 := percentile vs 25
  let q3 := percentile vs 75
  let iqr := q3 - q1
  let lowerBound := q1 - 3/2 * iqr
  let upperBound := q3 + 3/2 * iqr
  (Finset.range vs.length).filter
    (fun i => vs.getD i 0 < lowerBound ∨ upperBound < vs.getD i 0)

/-- DataProcessor._detect_outliers_zscore with threshold 3.0: the source
flags i when |v i - mean| / std > 3 and returns the empty set when std is
0.  Since std = √variance, std = 0 iff variance = 0, and for variance > 0
the flag condition is equivalent to (v i - mean)² > 3²·variance; the
squared form keeps the definition rational and executable. -/
def detectOutliersZscore (vs : List ℚ) (threshold : ℚ := 3) : Finset ℕ :=
  let mean := meanQ vs
  let variance := varianceQ vs
  if variance = 0 then ∅
  else
    (Finset.range vs.length).filter
      (fun i => threshold ^ 2 * variance < (vs.getD i 0 - mean) ^ 2)

/-- DataProcessor._detect_outliers_modified_zscore with threshold 3.5:
flag i when |0.6745·(v i - median)/MAD| > 3.5, returning the empty set
when the median absolute deviation is 0. -/
def detectOutliersModifiedZscore (vs : List ℚ) (threshold : ℚ := 7/2) : Finset ℕ :=
  let median := medianQ vs
  let mad := medianQ (vs.map (fun x => |x - median|))
  if mad = 0 then ∅
  else
    (Finset.range vs.length).filter
      (fun i => threshold < |6745/10000 * (vs.getD i 0 - median) / mad|)

/-! ## Rounding

Python's round(x, 2) rounds to two decimals, ties to the nearest even
hundredth (banker's rounding). -/

/-- Round a rational to the nearest integer, ties to even. -/
def roundHalfEven (q : ℚ) : ℤ :=
  if Int.fract q = 1/2 then (if 2 ∣ ⌊q⌋ then ⌊q⌋ else ⌊q⌋ + 1)
  else round q

/-- Python's round(x, 2). -/
def round2 (q : ℚ) : ℚ := (roundHalfEven (100 * q) : ℚ) / 100

/-! ## Forecast pipeline (Backend/main.py)

Wall-clock time is a natural number of hours since the epoch;
datetime.hour is the value modulo 24. -/

/-- Diurnal factor of the trend tier (predict_air_quality): 1.1 for
hour-of-day 6..18, 0.9 for 22..23 and 0..5, else 1.0. -/
def diurnalFactorTrend (h : ℕ) : ℚ :=
  if 6 ≤ h ∧ h ≤ 18 then 11/10
  else if 22 ≤ h ∨ h ≤ 5 then 9/10
  else 1

/-- Time factor of the fallback generator: 1.2 daytime, 0.7 night,
1.0 otherwise. -/
def fallbackTimeFactor (h : ℕ) : ℚ :=
  if 6 ≤ h ∧ h ≤ 18 then 12/10
  else if 22 ≤ h ∨ h ≤ 5 then 7/10
  else 1

/-- A row of the base_values table of generate_deterministic_predictions
(cmin/cmax are the dict's "min"/"max" clamp bounds). -/
structure BaseConfig where
  mean : ℚ
  std : ℚ
  cmin : ℚ
  cmax : ℚ
  deriving DecidableEq, Repr

/-- The base_values table with its .get default ⟨20, 10, 0, 50⟩. -/
def baseValues : String → BaseConfig
  | "PM2.5" => ⟨15, 8, 0, 50⟩
  | "O3" => ⟨45, 15, 0, 100⟩
  | "NO2" => ⟨25, 10, 0, 80⟩
  | _ => ⟨20, 10, 0, 50⟩

/-- The numpy global RNG state: the seed last set and the number of draws
made since. -/
abbrev RngState := ℕ × ℕ

/-- np.random.seed: reset the global RNG state. -/
def npRandomSeed (seed : ℕ) : RngState := (seed, 0)

/-- np.random.normal(mu, sigma) against the seeded stream: draw is the
external standard-normal stream (seed, draw index ↦ value); the call
returns mu + sigma·draw and advances the state by one draw. -/
def npNormal (draw : ℕ → ℕ → ℚ) (mu sigma : ℚ) (st : RngState) : ℚ × RngState :=
  (mu + sigma * draw st.1 st.2, (st.1, st.2 + 1))

/-- One iteration of the generate_deterministic_predictions loop at loop
index i: one clamped draw and its ±30% confidence band, both rounded to
two decimals.  Returns ((prediction, (lower, upper)), next RNG state). -/
def fallbackPoint (draw : ℕ → ℕ → ℚ) (cfg : BaseConfig) (currentHour : ℕ)
    (i : ℕ) (st : RngState) : (ℚ × (ℚ × ℚ)) × RngState :=
  let h := (currentHour + i) % 24
  let timeFactor := fallbackTimeFactor h
  let (raw, st') := npNormal draw (cfg.mean * timeFactor) cfg.std st
  let prediction := max cfg.cmin (min cfg.cmax raw)
  let confidenceWidth := prediction * 3/10
  let lower := max cfg.cmin (prediction - confidenceWidth)
  let upper := min cfg.cmax (prediction + confidenceWidth)
  ((round2 prediction, (round2 lower, round2 upper)), st')

/-- The generator loop, producing the points of loop indices
i, i+1, ..., i+count-1 while threading the RNG state. -/
def fallbackLoop (draw : ℕ → ℕ → ℚ) (cfg : BaseConfig) (currentHour : ℕ) :
    RngState → ℕ → ℕ → List (ℚ × (ℚ × ℚ))
  | _, _, 0 => []
  | st, i, count + 1 =>
    (fallbackPoint draw cfg currentHour i st).1 ::
      fallbackLoop draw cfg currentHour (fallbackPoint draw cfg currentHour i st).2
        (i + 1) count

/-- The dictionary returned by generate_deterministic_predictions. -/
structure FallbackResult where
  predictions : List ℚ
  confidenceIntervals : List (ℚ × ℚ)
  seed : ℕ
  method : String
  deriving DecidableEq, Repr

/-- generate_deterministic_predictions.  hash models
int(hashlib.md5(seed_string)[:8], 16); draw models the seeded
standard-normal stream; currentHour is datetime.utcnow().hour; rng is the
numpy global RNG state on entry, which np.random.seed(seed) overwrites
before any draw is taken. -/
def generateDeterministicPredictions (hash : String → ℕ) (draw : ℕ → ℕ → ℚ)
    (city parameter : String) (hoursAhead : ℕ) (currentHour : ℕ)
    (_rng : RngState) : FallbackResult :=
  let seedString := city ++ "_" ++ parameter ++ "_" ++ toString currentHour
  let seed := hash seedString
  let st := npRandomSeed seed
  let cfg := baseValues parameter
  let points := fallbackLoop draw cfg currentHour st 0 hoursAhead
  { predictions := points.map Prod.fst
    confidenceIntervals := points.map Prod.snd
    seed := seed
    method := "deterministic_hash" }

/-! ## Prediction cache (Backend/main.py) -/

/-- An entry of the global prediction_cache dict: the payload, the
'cached_hour' hour-of-day stamp, and 'cached_at' (datetime.utcnow(),
modelled as absolute hours since the epoch). -/
structure CacheEntry (α : Type) where
  prediction : α
  cachedHour : ℕ
  cachedAt : ℕ
  deriving DecidableEq, Repr

/-- The cache key f-string city_parameter_hoursAhead_currentHour. -/
abbrev CacheKey := String × String × ℕ × ℕ

/-- The prediction_cache dict, newest binding first. -/
abbrev Cache (α : Type) := List (CacheKey × CacheEntry α)

/-- Dictionary lookup (the newest binding wins, matching dict
assignment). -/
def cacheFind : Cache α → CacheKey → Option (CacheEntry α)
  | [], _ => none
  | (k', e) :: c, k => if k' = k then some e else cacheFind c k

/-- The entry get_cached_prediction accepts at wall-clock time t: the one
under the hour-stamped key that also passes the cached_hour == current
hour check. -/
def getCachedEntry (c : Cache α) (t : ℕ) (city parameter : String)
    (hoursAhead : ℕ) : Option (CacheEntry α) :=
  match cacheFind c (city, parameter, hoursAhead, t % 24) with
  | none => none
  | some e => if t % 24 = e.cachedHour then some e else none

/-- get_cached_prediction: the ['prediction'] payload of the accepted
entry. -/
def getCachedPrediction (c : Cache α) (t : ℕ) (city parameter : String)
    (hoursAhead : ℕ) : Option α :=
  (getCachedEntry c t city parameter hoursAhead).map CacheEntry.prediction

/-- cache_prediction at wall-clock time t: bind the payload under the
hour-stamped key with cached_hour = t % 24 and cached_at = t. -/
def cachePrediction (c : Cache α) (t : ℕ) (city parameter : String)
    (hoursAhead : ℕ) (payload : α) : Cache α :=
  ((city, parameter, hoursAhead, t % 24),
    { prediction := payload, cachedHour := t % 24, cachedAt := t }) :: c

/-! ## Trend tier (predict_air_quality, Backend/main.py) -/

/-- A forecast point as assembled by the endpoint: hourly timestamp
(hours since the epoch), rounded predicted value and confidence bounds. -/
structure ForecastPoint where
  timestamp : ℕ
  value : ℚ
  lower : ℚ
  upper : ℚ
  deriving DecidableEq, Repr

instance : Inhabited ForecastPoint := ⟨⟨0, 0, 0, 0⟩⟩

/-- avg_value = sum(values) / len(values). -/
def trendMean (values : List ℚ) : ℚ := values.sum / values.length

/-- max(values) (the source only evaluates it on nonempty lists). -/
def trendMax : List ℚ → ℚ
  | [] => 0
  | v :: vs => vs.foldl max v

/-- The OLS slope over (arrival index, value), with slope 0 when the
denominator vanishes. -/
def trendSlope (values : List ℚ) : ℚ :=
  let n := values.length
  let xs := (List.range n).map (fun i => (i : ℚ))
  let xMean : ℚ := xs.sum / n
  let yMean := trendMean values
  let num := ((xs.zip values).map (fun p => (p.1 - xMean) * (p.2 - yMean))).sum
  let den := (xs.map (fun x => (x - xMean) ^ 2)).sum
  if den = 0 then 0 else num / den

/-- The internal (pre-rounding) clamped trend-tier prediction at loop
index i, which is the (i+1)-st future hour:
(mean + slope·(n+i)) · diurnal factor of the forecast hour, clamped into
[0, 1.5·max]. -/
def trendPredictedValue (values : List ℚ) (now : ℕ) (i : ℕ) : ℚ :=
  let n := values.length
  let forecastTime := now + i + 1
  let trendAdjustment := trendSlope values * ((n : ℚ) + i)
  let d := diurnalFactorTrend (forecastTime % 24)
  let predicted := (trendMean values + trendAdjustment) * d
  max 0 (min predicted (trendMax values * 3/2))

/-- The 95% confidence margin 1.96·std_dev of the trend tier; sqrtQ
stands for Python's x ** 0.5. -/
def trendMargin (sqrtQ : ℚ → ℚ) (values : List ℚ) : ℚ :=
  sqrtQ (varianceQ values) * 196/100

/-- The emitted trend-tier forecast point at loop index i. -/
def trendPoint (sqrtQ : ℚ → ℚ) (now : ℕ) (values : List ℚ) (i : ℕ) :
    ForecastPoint :=
  let p := trendPredictedValue values now i
  let margin := trendMargin sqrtQ values
  { timestamp := now + i + 1
    value := round2 p
    lower := round2 (max 0 (p - margin))
    upper := round2 (p + margin) }

/-- The trend-tier loop over i in range(hours_ahead). -/
def trendForecast (sqrtQ : ℚ → ℚ) (now : ℕ) (values : List ℚ)
    (hoursAhead : ℕ) : List ForecastPoint :=
  (List.range hoursAhead).map (trendPoint sqrtQ now values)

/-! ## Model tier (AirQualityForecaster.predict, Backend/ml_model.py) -/

/-- The feature row X_pred built for one prediction hour: calendar fields
of the forecast time plus lag/rolling/difference features held fixed at
the latest known value (both branches of the source's lag if/else assign
the same latest value).  Calendar fields use an idealized epoch calendar
(365-day years, 30-day months); they only feed the abstract regressor. -/
structure FeatureRow where
  hour : ℕ
  dayOfWeek : ℕ
  dayOfYear : ℕ
  month : ℕ
  lag1 : ℚ
  lag2 : ℚ
  lag3 : ℚ
  lag6 : ℚ
  lag12 : ℚ
  lag24 : ℚ
  rolling3 : ℚ
  rolling6 : ℚ
  rolling12 : ℚ
  rolling24 : ℚ
  diff1 : ℚ
  diff24 : ℚ
  deriving DecidableEq, Repr

/-- Build the prediction feature row for absolute forecast time t. -/
def mlFeatureRow (t : ℕ) (lastValue : ℚ) : FeatureRow :=
  { hour := t % 24
    dayOfWeek := (t / 24) % 7
    dayOfYear := (t / 24) % 365 + 1
    month := ((t / 24) % 365) / 30 + 1
    lag1 := lastValue, lag2 := lastValue, lag3 := lastValue
    lag6 := lastValue, lag12 := lastValue, lag24 := lastValue
    rolling3 := lastValue, rolling6 := lastValue
    rolling12 := lastValue, rolling24 := lastValue
    diff1 := 0, diff24 := 0 }

/-- One hour of AirQualityForecaster.predict: the regressor g (the
trained RandomForestRegressor, an external collaborator) is applied to
the feature row; confidence_std is np.std(model.predict(X_pred)) · 1.96,
and model.predict(X_pred) is the one-element array [prediction], whose
standard deviation is exactly 0.  Returns
(prediction, (confidence_lower, confidence_upper)). -/
def mlPredictPoint (g : FeatureRow → ℚ) (now : ℕ) (lastValue : ℚ)
    (hour : ℕ) : ℚ × (ℚ × ℚ) :=
  let row := mlFeatureRow (now + hour) lastValue
  let prediction := g row
  let confidenceStd : ℚ := 0 * 196/100
  let confidenceLower := max 0 (prediction - confidenceStd)
  let confidenceUpper := prediction + confidenceStd
  (prediction, (confidenceLower, confidenceUpper))

/-- The prediction loop of AirQualityForecaster.predict, for hour in
range(1, hours_ahead + 1). -/
def mlPredict (g : FeatureRow → ℚ) (now : ℕ) (lastValue : ℚ)
    (hoursAhead : ℕ) : List (ℚ × (ℚ × ℚ)) :=
  (List.range hoursAhead).map (fun k => mlPredictPoint g now lastValue (k + 1))

/-! ## The /predict endpoint dispatch (predict_air_quality) -/

/-- A (date_utc, value) row of the recent-measurements query. -/
structure MeasurementRow where
  dateUtc : ℤ
  value : ℚ
  deriving DecidableEq, Repr

/-- sorted(recent_measurements, key=lambda x: x.date_utc). -/
def sortByDate (ms : List MeasurementRow) : List MeasurementRow :=
  sortBy (fun a b => decide (a.dateUtc ≤ b.dateUtc)) ms

/-- The response of the /predict endpoint, keeping the fields the claims
are about (predictions and confidence intervals are merged into the point
list; modelType is model_metadata['model_type']). -/
structure PredictResponseM where
  city : String
  parameter : String
  hoursAhead : ℕ
  points : List ForecastPoint
  modelType : String
  deriving DecidableEq, Repr

/-- predict_air_quality, as a function of the queried recent measurement
rows (the optional AirNow re-ingestion only refreshes that query and is
external network behaviour).  The two branches on len(recent) ≥ 12 /
< 12 both return, so the forecaster.predict call below them in the source
is unreachable and does not appear here.  The fallback branch consults
the cache first and caches what it generates. -/
def predictAirQuality (hash : String → ℕ) (draw : ℕ → ℕ → ℚ)
    (sqrtQ : ℚ → ℚ) (city parameter : String) (hoursAhead : ℕ)
    (recent : List MeasurementRow) (now : ℕ)
    (cache : Cache PredictResponseM) (rng : RngState) :
    Except String (PredictResponseM × Cache PredictResponseM) :=
  if ¬ (parameter = "PM2.5" ∨ parameter = "O3" ∨ parameter = "NO2") then
    Except.error "Invalid parameter"
  else if 12 ≤ recent.length then
    let values := (sortByDate recent).map MeasurementRow.value
    Except.ok
      ({ city := city, parameter := parameter, hoursAhead := hoursAhead
         points := trendForecast sqrtQ now values hoursAhead
         modelType := "Trend-Based Forecast" }, cache)
  else
    match getCachedPrediction cache now city parameter hoursAhead with
    | some resp => Except.ok (resp, cache)
    | none =>
      let gen := generateDeterministicPredictions hash draw city parameter
        hoursAhead (now % 24) rng
      let points := (gen.predictions.zip gen.confidenceIntervals).enum.map
        (fun ip => { timestamp := now + ip.1 + 1
                     value := ip.2.1
                     lower := ip.2.2.1
                     upper := ip.2.2.2 : ForecastPoint })
      let resp : PredictResponseM :=
        { city := city, parameter := parameter, hoursAhead := hoursAhead
          points := points
          modelType := "Deterministic Sample Predictions" }
      Except.ok (resp, cachePrediction cache now city parameter hoursAhead resp)

/-! ## Spec-side definitions used to compare claims against the code -/

/-- The trend-tier prediction formula exactly as the claim words it, for
the 1-based future hour i: (mean + slope·(n+i)) scaled by the diurnal
factor of the forecast hour now+i, clamped into [0, 1.5·max].  This
definition follows the claim, not the source; it is compared against
trendPredictedValue. -/
def trendPredictedValueClaim (values : List ℚ) (now : ℕ) (i : ℕ) : ℚ :=
  let n := values.length
  let d := diurnalFactorTrend ((now + i) % 24)
  max 0 (min ((trendMean values + trendSlope values * ((n : ℚ) + i)) * d)
    (trendMax values * 3/2))

/-- Well-formedness of a prediction cache: every stored binding's key
hour stamp equals its cached_hour field, which is the hour-of-day of its
cached_at creation time.  Holds for the empty cache and is preserved by
cache_prediction. -/
def cacheWF (c : Cache α) : Prop :=
  ∀ p ∈ c, p.1.2.2.2 = p.2.cachedHour ∧ p.2.cachedHour = p.2.cachedAt % 24

instance (c : Cache α) : Decidable (cacheWF c) := List.decidableBAll _ c

/-- A 12-point value series (eleven zeros then 26) whose OLS slope is 1;
used to separate the source's trend formula from the claim's. -/
def valuesC6 : List ℚ := [0, 0, 0, 0, 0, 0, 0, 0, 0, 0, 0, 26]

/-- Fifteen synthetic recent measurement rows for the tier-precedence
claim. -/
def recentC5 : List MeasurementRow :=
  (List.range 15).map (fun i => ⟨(i : ℤ), 10⟩)

/-! # Theorems -/

/-! ## Helper lemmas -/

theorem cacheFind_mem {c : Cache α} {k : CacheKey} {e : CacheEntry α}
    (h : cacheFind c k = some e) : (k, e) ∈ c := by
  induction c with
  | nil => simp [cacheFind] at h
  | cons p c ih =>
    rw [show cacheFind (p :: c) k = if p.1 = k then some p.2 else cacheFind c k
      from by cases p; rfl] at h
    by_cases hk : p.1 = k
    · rw [if_pos hk] at h
      have hpe : p = (k, e) := by
        cases p
        simp_all
      rw [← hpe]
      exact List.mem_cons_self _ _
    · rw [if_neg hk] at h
      exact List.mem_cons_of_mem _ (ih h)

theorem cacheWF_nil : cacheWF ([] : Cache α) := by
  intro p hp
  simp at hp

theorem cacheWF_cachePrediction {c : Cache α} (h : cacheWF c)
    (t : ℕ) (city parameter : String) (hoursAhead : ℕ) (payload : α) :
    cacheWF (cachePrediction c t city parameter hoursAhead payload) := by
  intro p hp
  rcases List.mem_cons.mp hp with hp | hp
  · subst hp
    exact ⟨rfl, rfl⟩
  · exact h p hp

theorem floor_le_roundHalfEven (q : ℚ) : ⌊q⌋ ≤ roundHalfEven q := by
  rw [roundHalfEven]
  split
  · split <;> omega
  · rw [round_eq]
    exact Int.floor_le_floor (by linarith)

theorem roundHalfEven_le_floor_add_one (q : ℚ) : roundHalfEven q ≤ ⌊q⌋ + 1 := by
  rw [roundHalfEven]
  split
  · split <;> omega
  · rw [round_eq]
    have h1 : ⌊q + 1 / 2⌋ ≤ ⌊q + 1⌋ := Int.floor_le_floor (by linarith)
    have h2 : ⌊q + 1⌋ = ⌊q⌋ + 1 := by
      exact_mod_cast Int.floor_add_one q
    omega

theorem roundHalfEven_mono {a b : ℚ} (hab : a ≤ b) :
    roundHalfEven a ≤ roundHalfEven b := by
  rcases lt_or_eq_of_le (Int.floor_le_floor hab) with hf | hf
  · calc roundHalfEven a ≤ ⌊a⌋ + 1 := roundHalfEven_le_floor_add_one a
      _ ≤ ⌊b⌋ := by omega
      _ ≤ roundHalfEven b := floor_le_roundHalfEven b
  · have hcast : (⌊a⌋ : ℚ) = (⌊b⌋ : ℚ) := by exact_mod_cast hf
    have hfr : Int.fract a ≤ Int.fract b := by
      simp only [Int.fract]
      linarith
    rw [roundHalfEven, roundHalfEven]
    by_cases ha : Int.fract a = 1 / 2 <;> by_cases hb : Int.fract b = 1 / 2
    · rw [if_pos ha, if_pos hb, hf]
    · rw [if_pos ha, if_neg hb]
      have hgt : 1 / 2 < Int.fract b := lt_of_le_of_ne (ha ▸ hfr) (Ne.symm hb)
      have hrb : ⌊b⌋ + 1 ≤ round b := by
        rw [round_eq]
        have hb' : (⌊b⌋ : ℚ) + 1 ≤ b + 1 / 2 := by
          have : Int.fract b = b - ⌊b⌋ := rfl
          linarith
        calc ⌊b⌋ + 1 = ⌊((⌊b⌋ : ℚ) + 1)⌋ := by
              rw [Int.floor_add_one, Int.floor_intCast]
          _ ≤ ⌊b + 1 / 2⌋ := Int.floor_le_floor hb'
      split <;> omega
    · rw [if_neg ha, if_pos hb]
      have hlt : Int.fract a < 1 / 2 := lt_of_le_of_ne (hb ▸ hfr) ha
      have hra : round a = ⌊a⌋ := by
        rw [round_eq]
        have h1 : ⌊a⌋ ≤ ⌊a + 1 / 2⌋ := Int.floor_le_floor (by linarith)
        have h2 : ⌊a + 1 / 2⌋ < ⌊a⌋ + 1 := by
          rw [Int.floor_lt]
          have : Int.fract a = a - ⌊a⌋ := rfl
          push_cast
          linarith
        omega
      rw [hra]
      split <;> omega
    · rw [if_neg ha, if_neg hb, round_eq, round_eq]
      exact Int.floor_le_floor (by linarith)

theorem roundHalfEven_nonneg {q : ℚ} (h : 0 ≤ q) : 0 ≤ roundHalfEven q := by
  have h1 : 0 ≤ ⌊q⌋ := Int.floor_nonneg.mpr h
  have h2 := floor_le_roundHalfEven q
  omega

theorem round2_mono {a b : ℚ} (hab : a ≤ b) : round2 a ≤ round2 b := by
  rw [round2, round2]
  have h1 : roundHalfEven (100 * a) ≤ roundHalfEven (100 * b) :=
    roundHalfEven_mono (by linarith)
  have h2 : ((roundHalfEven (100 * a) : ℚ)) ≤ (roundHalfEven (100 * b) : ℚ) := by
    exact_mod_cast h1
  linarith

theorem round2_nonneg {q : ℚ} (h : 0 ≤ q) : 0 ≤ round2 q := by
  rw [round2]
  have h1 : (0 : ℚ) ≤ (roundHalfEven (100 * q) : ℚ) := by
    exact_mod_cast roundHalfEven_nonneg (by linarith)
  linarith

theorem fallbackLoop_append (draw : ℕ → ℕ → ℚ) (cfg : BaseConfig) (ch : ℕ) :
    ∀ (a b : ℕ) (st : RngState) (i : ℕ),
      ∃ t, fallbackLoop draw cfg ch st i a ++ t = fallbackLoop draw cfg ch st i (a + b) := by
  intro a
  induction a with
  | zero =>
    intro b st i
    exact ⟨fallbackLoop draw cfg ch st i b, by simp [fallbackLoop]⟩
  | succ a ih =>
    intro b st i
    obtain ⟨t, ht⟩ := ih b (fallbackPoint draw cfg ch i st).2 (i + 1)
    refine ⟨t, ?_⟩
    have hadd : a + 1 + b = (a + b) + 1 := by omega
    rw [hadd]
    simp only [fallbackLoop]
    rw [List.cons_append, ht]

theorem replicate_getD (c d : ℚ) : ∀ (n i : ℕ), i < n → (List.replicate n c).getD i d = c
  | _ + 1, 0, _ => rfl
  | n + 1, i + 1, h => replicate_getD c d n i (by omega)

theorem insortBy_const (c : ℚ) : ∀ (n : ℕ),
    insortBy (fun a b => decide (a ≤ b)) c (List.replicate n c) =
      List.replicate (n + 1) c
  | 0 => rfl
  | n + 1 => by
    show insortBy _ c (c :: List.replicate n c) = c :: c :: List.replicate n c
    rw [insortBy, if_pos (by simp)]

theorem sortQ_const (c : ℚ) (vs : List ℚ) (hall : ∀ x ∈ vs, x = c) :
    sortQ vs = List.replicate vs.length c := by
  induction vs with
  | nil => rfl
  | cons v vs ih =>
    have hv : v = c := hall v (List.mem_cons_self v vs)
    have ht := ih (fun x hx => hall x (List.mem_cons_of_mem _ hx))
    simp only [sortQ, sortBy] at ht ⊢
    rw [ht, hv, insortBy_const]
    rfl

theorem getD_all_eq (c : ℚ) (vs : List ℚ) (hall : ∀ x ∈ vs, x = c)
    (i : ℕ) (h : i < vs.length) : vs.getD i 0 = c := by
  conv_lhs => rw [List.eq_replicate_of_mem hall]
  exact replicate_getD c 0 vs.length i h

theorem percentile_const (c q : ℚ) (vs : List ℚ) (hne : vs ≠ [])
    (hall : ∀ x ∈ vs, x = c) (_hq0 : 0 ≤ q) (hq1 : q ≤ 100) :
    percentile vs q = c := by
  have hn : 1 ≤ vs.length := List.length_pos.mpr hne
  simp only [percentile, sortQ_const c vs hall, List.length_replicate]
  have hposle : ((vs.length : ℚ) - 1) * q / 100 ≤ (vs.length : ℚ) - 1 := by
    have h1 : q / 100 ≤ 1 := by
      rw [div_le_one (by norm_num)]
      exact hq1
    have h2 : (0 : ℚ) ≤ (vs.length : ℚ) - 1 := by
      have : (1 : ℚ) ≤ (vs.length : ℚ) := by exact_mod_cast hn
      linarith
    calc ((vs.length : ℚ) - 1) * q / 100 = ((vs.length : ℚ) - 1) * (q / 100) := by
          ring
      _ ≤ ((vs.length : ℚ) - 1) * 1 := mul_le_mul_of_nonneg_left h1 h2
      _ = (vs.length : ℚ) - 1 := by ring
  have hfloor : ⌊((vs.length : ℚ) - 1) * q / 100⌋ ≤ (vs.length : ℤ) - 1 := by
    calc ⌊((vs.length : ℚ) - 1) * q / 100⌋ ≤ ⌊(vs.length : ℚ) - 1⌋ :=
          Int.floor_le_floor hposle
      _ = (vs.length : ℤ) - 1 := by
          rw [show ((vs.length : ℚ) - 1) = (((vs.length : ℤ) - 1 : ℤ) : ℚ) by
            push_cast; ring]
          exact Int.floor_intCast _
  have hlo : (⌊((vs.length : ℚ) - 1) * q / 100⌋).toNat < vs.length := by omega
  by_cases hbr : (⌊((vs.length : ℚ) - 1) * q / 100⌋).toNat + 1 < vs.length
  · rw [if_pos hbr, replicate_getD _ _ _ _ hlo, replicate_getD _ _ _ _ hbr]
    ring
  · rw [if_neg hbr, replicate_getD _ _ _ _ hlo]

theorem meanQ_const (c : ℚ) (vs : List ℚ) (hne : vs ≠ [])
    (hall : ∀ x ∈ vs, x = c) : meanQ vs = c := by
  have hn : 0 < vs.length := List.length_pos.mpr hne
  rw [meanQ, List.eq_replicate_of_mem hall, List.sum_replicate,
    List.length_replicate, nsmul_eq_mul]
  exact mul_div_cancel_left₀ c (by exact_mod_cast hn.ne')

theorem varianceQ_const (c : ℚ) (vs : List ℚ) (hne : vs ≠ [])
    (hall : ∀ x ∈ vs, x = c) : varianceQ vs = 0 := by
  rw [varianceQ]
  have hmap : ∀ y ∈ vs.map (fun v => (v - meanQ vs) ^ 2), y = 0 := by
    rintro y hy
    obtain ⟨x, hx, rfl⟩ := List.mem_map.mp hy
    rw [hall x hx, meanQ_const c vs hne hall]
    ring
  rw [List.eq_replicate_of_mem hmap, List.sum_replicate]
  simp

theorem medianQ_const (c : ℚ) (vs : List ℚ) (hne : vs ≠ [])
    (hall : ∀ x ∈ vs, x = c) : medianQ vs = c := by
  have hn : 0 < vs.length := List.length_pos.mpr hne
  simp only [medianQ, sortQ_const c vs hall, List.length_replicate]
  by_cases hodd : vs.length % 2 = 1
  · rw [if_pos hodd, replicate_getD _ _ _ _ (by omega)]
  · rw [if_neg hodd, replicate_getD _ _ _ _ (by omega),
      replicate_getD _ _ _ _ (by omega)]
    ring

/-! ## C1: unknown units in unit normalization -/

/-- Claim C1 counterexample: the claim says an unknown unit makes unit
normalization fail (ConversionError, record dropped) and is never
silently passed through; but _convert_units returns the value unchanged
with the original (case-folded, trimmed) unit, and the ingestion-side
_normalize_units silently applies factor 1.0 and relabels the unit
µg/m³. -/
theorem c1_counterexample :
    convertUnits 5 "xyz" "PM2.5" = (some 5, "xyz") ∧
    normalizeUnits 5 "xyz" "PM2.5" = (5, "µg/m³") := by
  constructor
  · rfl
  · have hx : pyStrip (pyLower "xyz") = "xyz" := rfl
    simp only [normalizeUnits, hx]
    rw [if_neg (by decide), if_neg (by decide), if_neg (by decide),
      if_neg (by decide), if_neg (by decide), if_neg (by decide)]
    norm_num

/-- Claim C1 (amended): a case-folded, trimmed unit that is not in the
conversion table is returned as-is with the original normalized unit
string (never a failure); unit conversion fails exactly when the unit is
ppm or ppb and the parameter has no molecular-weight entry. -/
theorem c1_unknown_unit (v : ℚ) (u p : String) :
    (unitConversions (pyStrip (pyLower u)) = none →
      convertUnits v u p = (some v, pyStrip (pyLower u))) ∧
    ((pyStrip (pyLower u) = "ppm" ∨ pyStrip (pyLower u) = "ppb") →
      molecularWeights p = none →
      (convertUnits v u p).1 = none) := by
  constructor
  · intro hu
    have hppm : pyStrip (pyLower u) ≠ "ppm" := by
      intro h
      rw [h] at hu
      simp [unitConversions] at hu
    have hppb : pyStrip (pyLower u) ≠ "ppb" := by
      intro h
      rw [h] at hu
      simp [unitConversions] at hu
    simp only [convertUnits, hu]
    rw [if_neg (by simp [hppm, hppb])]
    split <;> rfl
  · rintro (hu | hu) hm <;>
      simp [convertUnits, convertPpmPpb, hu, hm, unitConversions]

/-- Claim C1 amended witness: an unknown unit xyz is passed through unchanged,
and ppb with a parameter lacking a molecular weight fails. -/
theorem c1_unknown_unit_witness :
    convertUnits 5 "xyz" "PM2.5" = (some 5, pyStrip (pyLower "xyz")) ∧
    (convertUnits 7 "ppb" "SO2").1 = none :=
  ⟨(c1_unknown_unit 5 "xyz" "PM2.5").1 (by decide),
   (c1_unknown_unit 7 "ppb" "SO2").2 (by decide) (by decide)⟩

/-! ## C2: range validation versus parameter-name normalization -/

/-- Claim C2 counterexample: the claim says range validation happens after
parameter-name normalization, so an alias like pm25 gets the PM2.5 check;
but the source validates against the raw name ("pm25", absent from the
range table, so no check) and only then normalizes, letting clean() emit
a PM2.5 record with value 1000 ∉ [0, 500]. -/
theorem c2_counterexample :
    cleanMeasurements 0 [⟨"Austin", "pm25", some 1000, "µg/m³", some 0, "test"⟩] =
      [⟨"Austin", "PM2.5", 1000, "µg/m³", 0, "test"⟩] ∧
    ¬ ((1000 : ℚ) ≤ 500) := by
  constructor
  · have h1 : cleanSingleMeasurement 0
        ⟨"Austin", "pm25", some 1000, "µg/m³", some 0, "test"⟩ =
        some ⟨"Austin", "PM2.5", 1000 * 1, "µg/m³", 0, "test"⟩ := rfl
    simp only [cleanMeasurements, List.filterMap_cons, List.filterMap_nil, h1]
    norm_num [CleanMeasurement.mk.injEq]
  · norm_num

/-- Claim C2 (amended): range validation is applied to the canonical value
against the raw trimmed parameter name before normalization, so a record
arriving under the exact name PM2.5 has its cleaned value in [0, 500],
while records arriving under aliases such as pm25 bypass the range
check. -/
theorem clean_range_check_raw_name (now : ℤ) (m : RawMeasurement)
    (r : CleanMeasurement) (hr : cleanSingleMeasurement now m = some r)
    (hp : pyStrip m.parameter = "PM2.5") :
    0 ≤ r.value ∧ r.value ≤ 500 := by
  simp only [cleanSingleMeasurement] at hr
  cases hv : m.value with
  | none => rw [hv] at hr; cases m.dateUtc <;> simp at hr
  | some value =>
  cases hd : m.dateUtc with
  | none => rw [hv] at hr; rw [hd] at hr; simp at hr
  | some d =>
  simp only [hv, hd] at hr
  by_cases h1 : pyStrip m.city = "" ∨ pyStrip m.parameter = "" ∨ pyStrip m.unit = ""
  · rw [if_pos h1] at hr
    simp at hr
  rw [if_neg h1] at hr
  by_cases h2 : d < now - 365 * 24 ∨ now + 24 < d
  · rw [if_pos h2] at hr
    simp at hr
  rw [if_neg h2] at hr
  split at hr
  · simp at hr
  · rename_i cv cu heq
    split at hr
    · rename_i h3
      have hrr := Option.some.inj hr
      have hval : r.value = cv := by rw [← hrr]
      rw [hp] at h3
      simp only [validateValueRange, parameterRanges] at h3
      rw [hval]
      exact of_decide_eq_true h3
    · simp at hr

/-- Claim C2 amended witness: a record arriving under the exact name PM2.5
passes cleaning with its value confirmed inside [0, 500]. -/
theorem clean_range_check_raw_name_witness :
    0 ≤ (⟨"Austin", "PM2.5", 12 * 1, "µg/m³", 0, "openaq"⟩ : CleanMeasurement).value ∧
      (⟨"Austin", "PM2.5", 12 * 1, "µg/m³", 0, "openaq"⟩ : CleanMeasurement).value ≤ 500 :=
  clean_range_check_raw_name 0
    ⟨"Austin", "PM2.5", some 12, "µg/m³", some 0, "openaq"⟩
    ⟨"Austin", "PM2.5", 12 * 1, "µg/m³", 0, "openaq"⟩
    (by
      have h1 : cleanSingleMeasurement 0
          ⟨"Austin", "PM2.5", some 12, "µg/m³", some 0, "openaq"⟩ =
          (if validateValueRange (12 * 1) "PM2.5" = true then
            some ⟨"Austin", "PM2.5", 12 * 1, "µg/m³", 0, "openaq"⟩ else none) := rfl
      have h2 : validateValueRange (12 * 1) "PM2.5" = true := by
        simp only [validateValueRange, parameterRanges, decide_eq_true_eq]
        norm_num
      rw [h1, if_pos h2])
    rfl

/-! ## C3: cleaning never grows, preserves order, never raises -/

/-- Claim C3: clean_measurements (a total function here because the source
catches every per-record exception) returns at most as many records as
it was given, and its output is exactly the in-order image of the
surviving input records — order is preserved and each failure only drops
its own record. -/
theorem cleanMeasurements_length_order (now : ℤ) (ms : List RawMeasurement) :
    (cleanMeasurements now ms).length ≤ ms.length ∧
    cleanMeasurements now ms =
      (ms.filter (fun m => (cleanSingleMeasurement now m).isSome)).map
        (fun m => (cleanSingleMeasurement now m).getD default) := by
  refine ⟨List.length_filterMap_le _ _, ?_⟩
  simp only [cleanMeasurements]
  induction ms with
  | nil => rfl
  | cons m ms ih =>
    rw [List.filterMap_cons, List.filter_cons]
    cases h : cleanSingleMeasurement now m with
    | none => simpa [h] using ih
    | some r => simp [h, ih]

/-! ## C4: fallback determinism within one UTC hour -/

/-- Claim C4: the fallback generator re-seeds the RNG from (city, parameter,
current UTC hour) before drawing, so two invocations with the same city,
parameter and hours_ahead in the same UTC hour return identical
prediction and confidence-interval arrays regardless of the prior global
RNG state. -/
theorem generateDeterministicPredictions_deterministic (hash : String → ℕ)
    (draw : ℕ → ℕ → ℚ) (city parameter : String)
    (hoursAhead currentHour : ℕ) (rng₁ rng₂ : RngState) :
    generateDeterministicPredictions hash draw city parameter hoursAhead
        currentHour rng₁ =
      generateDeterministicPredictions hash draw city parameter hoursAhead
        currentHour rng₂ := rfl

/-! ## C5: trend-tier precedence at 12+ measurements -/

/-- Claim C5: with a valid parameter and at least 12 recent measurements the
endpoint answers from the trend tier — the response's model_type is
"Trend-Based Forecast", not the fallback's, and the cache is untouched. -/
theorem predict_trend_tier_precedence (hash : String → ℕ) (draw : ℕ → ℕ → ℚ)
    (sqrtQ : ℚ → ℚ) (city parameter : String) (hoursAhead : ℕ)
    (recent : List MeasurementRow) (now : ℕ)
    (cache : Cache PredictResponseM) (rng : RngState)
    (hparam : parameter = "PM2.5" ∨ parameter = "O3" ∨ parameter = "NO2")
    (hlen : 12 ≤ recent.length) :
    predictAirQuality hash draw sqrtQ city parameter hoursAhead recent now
        cache rng =
      Except.ok
        ({ city := city, parameter := parameter, hoursAhead := hoursAhead
           points := trendForecast sqrtQ now
             ((sortByDate recent).map MeasurementRow.value) hoursAhead
           modelType := "Trend-Based Forecast" }, cache) := by
  rw [predictAirQuality, if_neg (not_not_intro hparam), if_pos hlen]

/-- Claim C5 witness: fifteen synthetic recent rows for Austin/NO2 with no
trained model route through the trend tier. -/
theorem predict_trend_tier_precedence_witness :
    predictAirQuality (fun _ => 0) (fun _ _ => 0) (fun _ => 0) "Austin"
        "NO2" 24 recentC5 7 [] (0, 0) =
      Except.ok
        ({ city := "Austin", parameter := "NO2", hoursAhead := 24
           points := trendForecast (fun _ => 0) 7
             ((sortByDate recentC5).map MeasurementRow.value) 24
           modelType := "Trend-Based Forecast" }, []) :=
  predict_trend_tier_precedence (fun _ => 0) (fun _ _ => 0) (fun _ => 0)
    "Austin" "NO2" 24 recentC5 7 [] (0, 0) (Or.inr (Or.inr rfl)) (by decide)

/-! ## C6: the trend-tier prediction formula -/

/-- Claim C6 counterexample: the claim's formula uses slope·(n+i) for the
1-based future hour i, but the source's loop index starts at 0, so the
first future hour uses slope·(n+0): on the series valuesC6 (mean 13/6,
slope 1, n = 12, no clamping, diurnal factor 1 at forecast hour 19) the
code computes 85/6 where the claim's formula gives 91/6, and the emitted
point carries the rounded code value. -/
theorem c6_counterexample :
    trendPredictedValue valuesC6 18 0 = 85 / 6 ∧
    trendPredictedValueClaim valuesC6 18 1 = 91 / 6 ∧
    trendPredictedValue valuesC6 18 0 ≠ trendPredictedValueClaim valuesC6 18 1 ∧
    ((trendForecast (fun _ => 0) 18 valuesC6 1).getD 0 default).value =
      round2 (trendPredictedValue valuesC6 18 0) := by
  have hrange : List.range 12 = [0, 1, 2, 3, 4, 5, 6, 7, 8, 9, 10, 11] := by
    decide
  have hlen : valuesC6.length = 12 := by decide
  have hmean : trendMean valuesC6 = 13 / 6 := by
    norm_num [trendMean, valuesC6]
  have hmax : trendMax valuesC6 = 26 := by
    norm_num [trendMax, valuesC6, max_self, max_eq_right]
  have hmean' : trendMean [0, 0, 0, 0, 0, 0, 0, 0, 0, 0, 0, 26] = 13 / 6 :=
    hmean
  have hslope : trendSlope valuesC6 = 1 := by
    rw [trendSlope]
    norm_num [hlen, hrange, hmean', valuesC6]
  have h1 : trendPredictedValue valuesC6 18 0 = 85 / 6 := by
    rw [trendPredictedValue]
    norm_num [hlen, hmean, hmax, hslope, diurnalFactorTrend,
      min_eq_left, max_eq_right]
  have h2 : trendPredictedValueClaim valuesC6 18 1 = 91 / 6 := by
    rw [trendPredictedValueClaim]
    norm_num [hlen, hmean, hmax, hslope, diurnalFactorTrend,
      min_eq_left, max_eq_right]
  refine ⟨h1, h2, ?_, ?_⟩
  · rw [h1, h2]
    norm_num
  · have hr1 : List.range 1 = [0] := by decide
    simp [trendForecast, trendPoint, hr1]

/-- Claim C6 (amended): for 0 ≤ k < hours_ahead, the (k+1)-st future hour's
emitted prediction is (mean + slope·(n+k)) times the diurnal factor of
the forecast hour, clamped into [0, 1.5·max] and rounded to two
decimals — i.e. in the claim's 1-based indexing the i-th future hour
uses slope·(n+i−1). -/
theorem trend_formula_zero_based (sqrtQ : ℚ → ℚ) (now : ℕ) (values : List ℚ)
    (h k : ℕ) (hk : k < h) :
    ((trendForecast sqrtQ now values h).getD k default).value =
      round2 (max 0 (min ((trendMean values + trendSlope values *
          ((values.length : ℚ) + k)) *
        diurnalFactorTrend ((now + k + 1) % 24)) (trendMax values * 3 / 2))) := by
  rw [trendForecast, List.getD_eq_getElem?_getD, List.getElem?_map,
    List.getElem?_range hk]
  simp [trendPoint, trendPredictedValue]

/-- Claim C6 amended witness at k = 0 of a one-hour forecast over the series
[2, 4]. -/
theorem trend_formula_zero_based_witness :
    ((trendForecast (fun _ => 0) 0 [2, 4] 1).getD 0 default).value =
      round2 (max 0 (min ((trendMean [2, 4] + trendSlope [2, 4] *
          ((([2, 4] : List ℚ).length : ℚ) + 0)) *
        diurnalFactorTrend ((0 + 0 + 1) % 24)) (trendMax [2, 4] * 3 / 2))) :=
  trend_formula_zero_based (fun _ => 0) 0 [2, 4] 1 0 (by decide)

/-! ## C7: cache staleness is keyed by hour-of-day, not absolute hour -/

/-- Claim C7 counterexample: the claim says a get at a strictly later
wall-clock hour than the creation hour is a miss; but the key and the
validity check use only the hour-of-day, so an entry created at absolute
hour 0 is served again at absolute hour 24 (same hour-of-day one day
later). -/
theorem c7_counterexample :
    getCachedPrediction (cachePrediction ([] : Cache ℕ) 0 "Austin" "NO2" 24 7)
        24 "Austin" "NO2" 24 = some 7 := by
  decide

/-- Claim C7 (amended): the cache never serves an entry created at a time
whose hour-of-day differs from the current hour-of-day; so any read
later in the same day misses, but an entry created exactly a multiple of
24 hours earlier can still be served. -/
theorem cache_never_serves_other_hourOfDay {α : Type} (c : Cache α) (t : ℕ)
    (city parameter : String) (hoursAhead : ℕ) (e : CacheEntry α)
    (hwf : cacheWF c)
    (hget : getCachedEntry c t city parameter hoursAhead = some e) :
    e.cachedAt % 24 = t % 24 := by
  simp only [getCachedEntry] at hget
  split at hget
  · simp at hget
  · rename_i e' hfind
    split at hget
    · rename_i hh
      have he : e' = e := Option.some.inj hget
      subst he
      obtain ⟨-, h2⟩ := hwf _ (cacheFind_mem hfind)
      rw [← h2]
      exact hh.symm
    · simp at hget

/-- Claim C7 amended witness: the entry created at absolute hour 0 is served
at absolute hour 24, and indeed 0 and 24 share the same hour-of-day. -/
theorem cache_never_serves_other_hourOfDay_witness :
    (⟨7, 0, 0⟩ : CacheEntry ℕ).cachedAt % 24 = 24 % 24 :=
  cache_never_serves_other_hourOfDay
    (cachePrediction ([] : Cache ℕ) 0 "Austin" "NO2" 24 7) 24 "Austin" "NO2"
    24 ⟨7, 0, 0⟩ (by decide) (by decide)

/-! ## C8: outlier detection on constant series -/

/-- Claim C8: on a nonempty constant value series all three outlier detection
methods flag nothing: the IQR is zero so the bounds coincide with the
constant, the standard deviation is zero (zero-variance guard), and the
median absolute deviation is zero (zero-MAD guard). -/
theorem outlier_detection_constant (c : ℚ) (vs : List ℚ) (hne : vs ≠ [])
    (hall : ∀ x ∈ vs, x = c) :
    detectOutliersIqr vs = ∅ ∧ detectOutliersZscore vs = ∅ ∧
      detectOutliersModifiedZscore vs = ∅ := by
  refine ⟨?_, ?_, ?_⟩
  · simp only [detectOutliersIqr,
      percentile_const c 25 vs hne hall (by norm_num) (by norm_num),
      percentile_const c 75 vs hne hall (by norm_num) (by norm_num)]
    apply Finset.filter_false_of_mem
    intro i hi
    rw [getD_all_eq c vs hall i (Finset.mem_range.mp hi)]
    have e1 : c - 3 / 2 * (c - c) = c := by ring
    have e2 : c + 3 / 2 * (c - c) = c := by ring
    rw [e1, e2]
    simp
  · simp only [detectOutliersZscore, varianceQ_const c vs hne hall]
    simp
  · have hmed := medianQ_const c vs hne hall
    have hmap : ∀ y ∈ vs.map (fun x => |x - medianQ vs|), y = 0 := by
      rintro y hy
      obtain ⟨x, hx, rfl⟩ := List.mem_map.mp hy
      rw [hall x hx, hmed]
      simp
    have hne2 : vs.map (fun x => |x - medianQ vs|) ≠ [] := by
      simpa using hne
    have hmad := medianQ_const 0 _ hne2 hmap
    simp only [detectOutliersModifiedZscore, hmad]
    simp

/-- Claim C8 witness on the concrete constant series [5,5,5,5,5]. -/
theorem outlier_detection_constant_witness :
    detectOutliersIqr [5, 5, 5, 5, 5] = ∅ ∧
      detectOutliersZscore [5, 5, 5, 5, 5] = ∅ ∧
      detectOutliersModifiedZscore [5, 5, 5, 5, 5] = ∅ :=
  outlier_detection_constant 5 [5, 5, 5, 5, 5] (by simp) (by simp)

/-! ## C9: forecast point invariants -/

theorem zip_map_fst_snd_self (l : List (α × β)) :
    (l.map Prod.fst).zip (l.map Prod.snd) = l := by
  induction l with
  | nil => rfl
  | cons x xs ih => simp [ih]

theorem varianceQ_nonneg (values : List ℚ) : 0 ≤ varianceQ values := by
  rw [varianceQ]
  apply div_nonneg _ (by positivity)
  apply List.sum_nonneg
  intro x hx
  obtain ⟨v, _, rfl⟩ := List.mem_map.mp hx
  positivity

theorem trendForecast_inv (sqrtQ : ℚ → ℚ)
    (hs : ∀ x : ℚ, 0 ≤ x → 0 ≤ sqrtQ x) (now : ℕ) (values : List ℚ)
    (h : ℕ) : ∀ pt ∈ trendForecast sqrtQ now values h,
      0 ≤ pt.value ∧ 0 ≤ pt.lower ∧ pt.lower ≤ pt.upper := by
  intro pt hpt
  rw [trendForecast] at hpt
  obtain ⟨i, _, rfl⟩ := List.mem_map.mp hpt
  have hmargin : 0 ≤ trendMargin sqrtQ values := by
    rw [trendMargin]
    exact div_nonneg (mul_nonneg (hs _ (varianceQ_nonneg values)) (by norm_num))
      (by norm_num)
  have hp : 0 ≤ trendPredictedValue values now i := by
    rw [trendPredictedValue]
    exact le_max_left _ _
  simp only [trendPoint]
  refine ⟨round2_nonneg hp, round2_nonneg (le_max_left _ _), round2_mono ?_⟩
  apply max_le
  · linarith
  · linarith

theorem fallbackLoop_inv (draw : ℕ → ℕ → ℚ) (cfg : BaseConfig) (ch : ℕ)
    (hmin : cfg.cmin = 0) (hmax : 0 ≤ cfg.cmax) :
    ∀ (count : ℕ) (st : RngState) (i : ℕ),
      ∀ p ∈ fallbackLoop draw cfg ch st i count,
        0 ≤ p.1 ∧ 0 ≤ p.2.1 ∧ p.2.1 ≤ p.2.2 := by
  intro count
  induction count with
  | zero =>
    intro st i p hp
    simp [fallbackLoop] at hp
  | succ n ih =>
    intro st i p hp
    rw [fallbackLoop] at hp
    rcases List.mem_cons.mp hp with hp | hp
    · subst hp
      simp only [fallbackPoint, npNormal, hmin]
      set raw := cfg.mean * fallbackTimeFactor ((ch + i) % 24) +
        cfg.std * draw st.1 st.2 with hraw
      set pr := max 0 (min cfg.cmax raw) with hpr
      have hp0 : 0 ≤ pr := le_max_left _ _
      have hpmax : pr ≤ cfg.cmax := max_le hmax (min_le_left _ _)
      have hw : 0 ≤ pr * 3 / 10 := by positivity
      refine ⟨round2_nonneg hp0, round2_nonneg (le_max_left _ _),
        round2_mono ?_⟩
      apply max_le
      · apply le_min hmax
        linarith
      · apply le_min
        · linarith
        · linarith
    · exact ih _ _ p hp

theorem mlPredict_inv (g : FeatureRow → ℚ) (hg : ∀ row, 0 ≤ g row)
    (now : ℕ) (lastValue : ℚ) (h : ℕ) :
    ∀ p ∈ mlPredict g now lastValue h,
      0 ≤ p.1 ∧ 0 ≤ p.2.1 ∧ p.2.1 ≤ p.2.2 := by
  intro p hp
  rw [mlPredict] at hp
  obtain ⟨k, _, rfl⟩ := List.mem_map.mp hp
  simp only [mlPredictPoint]
  have h0 := hg (mlFeatureRow (now + (k + 1)) lastValue)
  refine ⟨h0, le_max_left _ _, ?_⟩
  rw [show (0 : ℚ) * 196 / 100 = 0 by norm_num, sub_zero, add_zero]
  exact max_le h0 le_rfl

theorem baseValues_clamp (p : String) :
    (baseValues p).cmin = 0 ∧ 0 ≤ (baseValues p).cmax := by
  rw [baseValues.eq_def]
  split <;> norm_num

/-- Claim C9 counterexample: the claim says every forecast point of any tier
has predicted_value ≥ 0 and interval_upper ≥ interval_lower; but the
model tier passes the regressor output through unclamped with a
zero-width uncertainty estimate, so a regressor that outputs -1 yields
the point (-1, (0, -1)): negative value and upper < lower. -/
theorem c9_counterexample :
    mlPredict (fun _ => -1) 0 0 1 = [(-1, (0, -1))] ∧ (-1 : ℚ) < 0 := by
  constructor
  · have hr1 : List.range 1 = [0] := by decide
    simp only [mlPredict, mlPredictPoint, hr1, List.map_cons, List.map_nil]
    norm_num
  · norm_num

/-- Claim C9 (amended): every trend-tier and every fallback-tier forecast
point has value ≥ 0, lower ≥ 0 and lower ≤ upper, assuming only that the
library square root is nonnegative on nonnegative inputs; a model-tier
point satisfies the same bounds provided the regressor's prediction is
nonnegative — the source never clamps that prediction. -/
theorem forecast_point_invariants
    (sqrtQ : ℚ → ℚ) (hsqrt : ∀ x : ℚ, 0 ≤ x → 0 ≤ sqrtQ x)
    (hash : String → ℕ) (draw : ℕ → ℕ → ℚ)
    (g : FeatureRow → ℚ) (hg : ∀ row, 0 ≤ g row)
    (city parameter : String) (hoursAhead currentHour now : ℕ)
    (rng : RngState) (values : List ℚ) (lastValue : ℚ) :
    (∀ pt ∈ trendForecast sqrtQ now values hoursAhead,
       0 ≤ pt.value ∧ 0 ≤ pt.lower ∧ pt.lower ≤ pt.upper) ∧
    (∀ p ∈ (generateDeterministicPredictions hash draw city parameter
          hoursAhead currentHour rng).predictions.zip
        (generateDeterministicPredictions hash draw city parameter
          hoursAhead currentHour rng).confidenceIntervals,
       0 ≤ p.1 ∧ 0 ≤ p.2.1 ∧ p.2.1 ≤ p.2.2) ∧
    (∀ p ∈ mlPredict g now lastValue hoursAhead,
       0 ≤ p.1 ∧ 0 ≤ p.2.1 ∧ p.2.1 ≤ p.2.2) := by
  refine ⟨trendForecast_inv sqrtQ hsqrt now values hoursAhead, ?_,
    mlPredict_inv g hg now lastValue hoursAhead⟩
  intro p hp
  simp only [generateDeterministicPredictions, zip_map_fst_snd_self] at hp
  obtain ⟨h1, h2⟩ := baseValues_clamp parameter
  exact fallbackLoop_inv draw (baseValues parameter) currentHour h1 h2
    hoursAhead _ 0 p hp

/-- Claim C9 amended witness: the invariant instantiated at the first
trend-tier point of a concrete one-hour forecast, with nonnegative
library stand-ins. -/
theorem forecast_point_invariants_witness :
    0 ≤ ((trendForecast (fun _ => 0) 7 ([5] : List ℚ) 1).getD 0 default).value ∧
      0 ≤ ((trendForecast (fun _ => 0) 7 ([5] : List ℚ) 1).getD 0 default).lower ∧
      ((trendForecast (fun _ => 0) 7 ([5] : List ℚ) 1).getD 0 default).lower ≤
        ((trendForecast (fun _ => 0) 7 ([5] : List ℚ) 1).getD 0 default).upper :=
  (forecast_point_invariants (fun _ => 0) (fun _ _ => le_refl 0)
      (fun _ => 0) (fun _ _ => 0) (fun _ => 1) (fun _ => by norm_num)
      "Austin" "NO2" 1 5 7 (0, 0) [5] 5).1 _
    (by
      have hr1 : List.range 1 = [0] := by decide
      simp [trendForecast, hr1])

/-! ## C10: fallback horizons are prefixes of longer horizons -/

theorem fallbackLoop_length (draw : ℕ → ℕ → ℚ) (cfg : BaseConfig) (ch : ℕ) :
    ∀ (count : ℕ) (st : RngState) (i : ℕ),
      (fallbackLoop draw cfg ch st i count).length = count := by
  intro count
  induction count with
  | zero =>
    intro st i
    rfl
  | succ n ih =>
    intro st i
    rw [fallbackLoop, List.length_cons, ih]

/-- Claim C10: for a fixed city, parameter and current hour the
generator re-seeds identically and draws one value per forecast hour, so
the prediction array for horizon h is a prefix of the one for any
horizon h' ≥ h (taking its first h entries recovers it exactly), and
likewise for the confidence-interval arrays. -/
theorem fallback_horizon_monotone (hash : String → ℕ) (draw : ℕ → ℕ → ℚ)
    (city parameter : String) (h h' currentHour : ℕ)
    (rng rng' : RngState) (hle : h ≤ h') :
    ((generateDeterministicPredictions hash draw city parameter h'
        currentHour rng').predictions.take h =
      (generateDeterministicPredictions hash draw city parameter h
        currentHour rng).predictions) ∧
    ((generateDeterministicPredictions hash draw city parameter h'
        currentHour rng').confidenceIntervals.take h =
      (generateDeterministicPredictions hash draw city parameter h
        currentHour rng).confidenceIntervals) := by
  obtain ⟨b, rfl⟩ := Nat.exists_eq_add_of_le hle
  obtain ⟨t, ht⟩ := fallbackLoop_append draw (baseValues parameter) currentHour
    h b (npRandomSeed (hash (city ++ "_" ++ parameter ++ "_" ++ toString currentHour))) 0
  constructor
  · simp only [generateDeterministicPredictions]
    rw [← ht, List.map_append]
    apply List.take_left'
    rw [List.length_map, fallbackLoop_length]
  · simp only [generateDeterministicPredictions]
    rw [← ht, List.map_append]
    apply List.take_left'
    rw [List.length_map, fallbackLoop_length]

/-- Claim C10 witness at horizons 1 ≤ 2 with concrete hash and draw
streams. -/
theorem fallback_horizon_monotone_witness :
    ((generateDeterministicPredictions (fun _ => 0) (fun _ _ => 0)
        "Austin" "NO2" 2 5 (0, 0)).predictions.take 1 =
      (generateDeterministicPredictions (fun _ => 0) (fun _ _ => 0)
        "Austin" "NO2" 1 5 (0, 0)).predictions) ∧
    ((generateDeterministicPredictions (fun _ => 0) (fun _ _ => 0)
        "Austin" "NO2" 2 5 (0, 0)).confidenceIntervals.take 1 =
      (generateDeterministicPredictions (fun _ => 0) (fun _ _ => 0)
        "Austin" "NO2" 1 5 (0, 0)).confidenceIntervals) :=
  fallback_horizon_monotone (fun _ => 0) (fun _ _ => 0) "Austin" "NO2" 1 2 5
    (0, 0) (0, 0) (by decide)

end AQ
